import Mathlib

/-!
Shallow embedding of the gossip round protocol model from
`crates/kitsune_p2p/kitsune_p2p/src/gossip/model/round_model.rs` (the
per-round state machine `RoundMachine`) and
`crates/kitsune_p2p/kitsune_p2p/src/gossip/model/peer_model.rs` (the
per-node coordinator `PeerMachine`).

Rust `KitsuneResult`-style fallible transitions are embedded as `Except`;
the distinct `bail!` sites of the source become the constructors of
`ModelError`.  `NodeId` is `IdU8<3>` in the source (`model.rs`: `PEERS = 3`),
embedded as `Fin 3`.  The `BTreeMap<NodeId, RoundPhase>` of sessions is
embedded extensionally as a function `NodeId → Option RoundPhase` (over the
finite key type the two are in bijection; `insert` overwrites, `remove`
deletes).
-/

namespace KitsuneGossipModel

/-- GossipType from kitsune_p2p_types, as used by the model. -/
inductive GossipType
  | Recent
  | Historical
deriving DecidableEq, Repr, Fintype

/-- RoundPhase from round_model.rs: the Bool is true if we "must send". -/
inductive RoundPhase
  | Started (mustSend : Bool)
  | AgentDiffReceived
  | AgentsReceived (mustSend : Bool)
  | OpDiffReceived
  | Finished
deriving DecidableEq, Repr, Fintype

/-- RoundMsg from round_model.rs: the wire message vocabulary. -/
inductive RoundMsg
  | Initiate
  | Accept
  | AgentDiff
  | Agents
  | OpDiff
  | Ops
  | Close
deriving DecidableEq, Repr, Fintype

/-- RoundAction from round_model.rs: either a message from another peer or
the special model-specific MustSend action. -/
inductive RoundAction
  | Msg (msg : RoundMsg)
  | MustSend
deriving DecidableEq, Repr

/-- NodeId is IdU8 3 in model.rs (PEERS = 3). -/
abbrev NodeId := Fin 3

/-- Each distinct bail! site of round_model.rs and peer_model.rs becomes one
constructor, carrying the data interpolated into the error string. -/
inductive ModelError
  | terminal
  | invalidTransition (t : GossipType) (msg : RoundMsg) (phase : RoundPhase)
  | mustSendAlreadySet
  | tieBreakWinnerNotTarget
  | noInitiateTarget
  | invalidAccept
  | noRound (peer : NodeId)
  | nope
deriving DecidableEq, Repr

instance {ε α : Type} [DecidableEq ε] [DecidableEq α] : DecidableEq (Except ε α) :=
  fun a b =>
    match a, b with
    | .ok x, .ok y =>
        if h : x = y then .isTrue (by rw [h])
        else .isFalse (by intro hh; cases hh; exact h rfl)
    | .error x, .error y =>
        if h : x = y then .isTrue (by rw [h])
        else .isFalse (by intro hh; cases hh; exact h rfl)
    | .ok _, .error _ => .isFalse (by intro hh; cases hh)
    | .error _, .ok _ => .isFalse (by intro hh; cases hh)

/-- Transition of RoundMachine (round_model.rs, `impl Machine for RoundMachine`,
fn transition).  The match arms appear in the source's order; like Rust's
`match`, Lean's `match` takes the first arm that fits, which matters for the
`Finished`, `Close` and catch-all arms. -/
def roundTransition (t : GossipType) (state : RoundPhase) (action : RoundAction) :
    Except ModelError (RoundPhase × List RoundMsg) :=
  match action with
  | .Msg msg =>
    match t, msg, state with
    | .Recent, .AgentDiff, .Started true => .ok (.AgentDiffReceived, [.Agents])
    | .Recent, .AgentDiff, .Started false => .ok (.AgentsReceived false, [.OpDiff])
    | .Recent, .Agents, .AgentDiffReceived => .ok (.AgentsReceived false, [.OpDiff])
    | .Recent, .OpDiff, .Started true => .ok (.OpDiffReceived, [.Ops])
    | .Recent, .OpDiff, .AgentsReceived true => .ok (.OpDiffReceived, [.Ops])
    | .Recent, .OpDiff, .AgentsReceived false => .ok (.Finished, [])
    | .Historical, .OpDiff, .Started _ => .ok (.OpDiffReceived, [.Ops])
    | .Recent, .Ops, .OpDiffReceived => .ok (.Finished, [])
    | .Historical, .Ops, .OpDiffReceived => .ok (.Finished, [])
    | _, _, .Finished => .error .terminal
    | _, .Close, _ => .ok (.Finished, [])
    | t, m, p => .error (.invalidTransition t m p)
  | .MustSend =>
    match t, state with
    | .Recent, .Started mustSend =>
        if mustSend then .error .mustSendAlreadySet else .ok (.Started true, [])
    | .Recent, .AgentsReceived mustSend =>
        if mustSend then .error .mustSendAlreadySet
        else .ok (.AgentsReceived true, [])
    | .Historical, .Started mustSend =>
        if mustSend then .error .mustSendAlreadySet else .ok (.Started true, [])
    | _, other => .ok (other, [])

/-- Tgt from peer_model.rs: the pending self-initiation target.  In this model
the tie breaker is a Bool (see the comment in the source: the SUT uses a
random u32, the model shrinks it to a Bool). -/
structure Tgt where
  cert : NodeId
  tie_break : Bool
deriving DecidableEq, Repr

/-- PeerState from peer_model.rs: `rounds: BTreeMap<NodeId, RoundPhase>`
embedded as a function to Option, plus `initiate_tgt`. -/
structure PeerState where
  rounds : NodeId → Option RoundPhase
  initiate_tgt : Option Tgt

instance : DecidableEq PeerState := fun a b =>
  if h1 : a.rounds = b.rounds then
    if h2 : a.initiate_tgt = b.initiate_tgt then
      .isTrue (by cases a; cases b; cases h1; cases h2; rfl)
    else .isFalse (by intro hh; cases hh; exact h2 rfl)
  else .isFalse (by intro hh; cases hh; exact h1 rfl)

/-- BTreeMap::insert for the functional map embedding (overwrites). -/
def mapInsert (m : NodeId → Option RoundPhase) (k : NodeId) (v : RoundPhase) :
    NodeId → Option RoundPhase :=
  fun q => if q = k then some v else m q

/-- BTreeMap::remove for the functional map embedding. -/
def mapRemove (m : NodeId → Option RoundPhase) (k : NodeId) :
    NodeId → Option RoundPhase :=
  fun q => if q = k then none else m q

/-- PeerState::new from peer_model.rs: no rounds, no initiate target. -/
def PeerState.initial : PeerState :=
  { rounds := fun _ => none, initiate_tgt := none }

/-- PeerState::finish_round from peer_model.rs: clear initiate_tgt when it
points at this peer, and remove the peer's round. -/
def finishRound (state : PeerState) (peer : NodeId) : PeerState :=
  let state :=
    if state.initiate_tgt.map Tgt.cert = some peer then
      { state with initiate_tgt := none }
    else state
  { state with rounds := mapRemove state.rounds peer }

/-- NodeAction from peer_model.rs. -/
inductive NodeAction
  | SetInitiate (node : NodeId) (tieBreak : Bool)
  | Timeout (node : NodeId)
  | Incoming (sender : NodeId) (msg : RoundMsg)
  | MustSend (node : NodeId)
  | TieBreakLoser (node : NodeId)
deriving DecidableEq, Repr

/-- NodeAction::node_id from peer_model.rs. -/
def NodeAction.nodeId : NodeAction → NodeId
  | .Incoming sender _ => sender
  | .Timeout node => node
  | .SetInitiate node _ => node
  | .MustSend node => node
  | .TieBreakLoser node => node

/-- NodeAction::into_round_action from peer_model.rs. -/
def NodeAction.intoRoundAction : NodeAction → Option RoundAction
  | .Incoming _ msg => some (.Msg msg)
  | .MustSend _ => some .MustSend
  | _ => none

/-- Transition of PeerMachine (peer_model.rs, `impl Machine for PeerMachine`,
fn transition).  Arms in the source's order: SetInitiate, Timeout,
TieBreakLoser, Incoming Initiate, Incoming Accept, Incoming Close, then the
catch-all delegation to the round machine.  Effects are (peer, message)
pairs; errors discard the (partially mutated) state, exactly as Rust's `?`
and `bail!` drop the owned state. -/
def peerTransition (gt : GossipType) (state : PeerState) (action : NodeAction) :
    Except ModelError (PeerState × List (NodeId × RoundMsg)) :=
  match action with
  | .SetInitiate withNode tieBreak =>
      let state :=
        if state.initiate_tgt.isNone then
          { state with initiate_tgt := some ⟨withNode, tieBreak⟩ }
        else state
      .ok (state, [(withNode, .Initiate)])
  | .Timeout peer =>
      let state := { state with rounds := mapRemove state.rounds peer }
      .ok (finishRound state peer, [])
  | .TieBreakLoser peer =>
      match state.initiate_tgt with
      | some tgt =>
          if tgt.cert = peer then .ok ({ state with initiate_tgt := none }, [])
          else .error .tieBreakWinnerNotTarget
      | none => .error .noInitiateTarget
  | .Incoming sender .Initiate =>
      if (state.rounds sender).isSome then
        .ok (state, [])
      else if state.initiate_tgt.map Tgt.cert = some sender then
        .ok (state, [])
      else
        .ok ({ state with rounds := mapInsert state.rounds sender (.Started false) },
          [(sender, .Accept),
           (sender, if gt = .Recent then RoundMsg.AgentDiff else RoundMsg.OpDiff)])
  | .Incoming sender .Accept =>
      if (state.rounds sender).isSome then
        .ok (state, [])
      else if state.initiate_tgt.map Tgt.cert ≠ some sender then
        .error .invalidAccept
      else
        .ok ({ state with rounds := mapInsert state.rounds sender (.Started false) },
          [(sender, if gt = .Recent then RoundMsg.AgentDiff else RoundMsg.OpDiff)])
  | .Incoming sender .Close =>
      .ok ({ state with rounds := mapRemove state.rounds sender }, [])
  | act =>
      let sender := act.nodeId
      match act.intoRoundAction with
      | some ra =>
          match state.rounds sender with
          | none => .error (.noRound sender)
          | some round =>
              match roundTransition gt round ra with
              | .error e => .error e
              | .ok (round', fx) =>
                  let st1 : PeerState :=
                    { state with rounds := mapRemove state.rounds sender }
                  let st2 :=
                    if round' = .Finished then finishRound st1 sender
                    else { st1 with rounds := mapInsert st1.rounds sender round' }
                  .ok (st2, fx.map (fun m => (sender, m)))
      | none => .error .nope

/-- Sequential application of actions from a state, keeping only the state;
an action that fails aborts the whole run.  This is the reachability notion
of the coordinator claims ("reachable by a sequence of successfully applied
operations"). -/
def runAll (gt : GossipType) : PeerState → List NodeAction → Except ModelError PeerState
  | s, [] => .ok s
  | s, a :: rest =>
      match peerTransition gt s a with
      | .ok (s', _) => runAll gt s' rest
      | .error e => .error e

/-- Combinations the spec's transition table lists (section 4.1): the Recent
rows, the Historical rows, and the mode-independent row "any phase + Close →
Finished" (which the code, placing its terminal check first, does not apply
in phase Finished).  This definition follows the spec's words and exists only
to state which (mode, message, phase) combinations are listed, for comparison
with `roundTransition` (which is translated from the source). -/
def inSpecTable (t : GossipType) (msg : RoundMsg) (phase : RoundPhase) : Bool :=
  match t, msg, phase with
  | .Recent, .AgentDiff, .Started _ => true
  | .Recent, .Agents, .AgentDiffReceived => true
  | .Recent, .OpDiff, .Started true => true
  | .Recent, .OpDiff, .AgentsReceived _ => true
  | .Recent, .Ops, .OpDiffReceived => true
  | .Historical, .OpDiff, .Started _ => true
  | .Historical, .Ops, .OpDiffReceived => true
  | _, .Close, .Finished => false
  | _, .Close, _ => true
  | _, _, _ => false

/-- The safety invariant of claim C1: a pending initiate target has no
session in the rounds map. -/
def InitiateTargetFree (s : PeerState) : Prop :=
  ∀ t : Tgt, s.initiate_tgt = some t → s.rounds t.cert = none

/-- Guard for the amended C1 reachability: the two operations the
counterexamples show break the invariant are excluded — requestInitiate
aimed at a peer that already has a session, and handling an incoming
Accept (which creates a session for the target without clearing it). -/
def actionAllowed (s : PeerState) : NodeAction → Bool
  | .SetInitiate p _ => (s.rounds p).isNone
  | .Incoming _ .Accept => false
  | _ => true

/-- Sequential application like `runAll`, but each action must also pass
`actionAllowed` in the state it is applied to. -/
def runGuarded (gt : GossipType) : PeerState → List NodeAction → Option PeerState
  | s, [] => some s
  | s, a :: rest =>
      if actionAllowed s a then
        match peerTransition gt s a with
        | .ok (s', _) => runGuarded gt s' rest
        | .error _ => none
      else none

/-! ## Round machine claims -/

/-- C7: the MustSend pseudo-action in phase Started(false) (either mode) or
AgentsReceived(false) (Recent mode) sets the mustSend flag in place, with no
phase change and no effects; with the flag already true it fails with the
"must_send already set" invariant violation. -/
theorem mustSend_sets_flag_or_fails :
    roundTransition .Recent (.Started false) .MustSend = .ok (.Started true, []) ∧
    roundTransition .Historical (.Started false) .MustSend = .ok (.Started true, []) ∧
    roundTransition .Recent (.AgentsReceived false) .MustSend
      = .ok (.AgentsReceived true, []) ∧
    roundTransition .Recent (.Started true) .MustSend = .error .mustSendAlreadySet ∧
    roundTransition .Historical (.Started true) .MustSend
      = .error .mustSendAlreadySet ∧
    roundTransition .Recent (.AgentsReceived true) .MustSend
      = .error .mustSendAlreadySet := by
  decide

/-- C8: for every mode and phase-message combination the spec's transition
table does not list, the round transition fails: with the "terminal"
protocol violation when the phase is Finished (this covers every message
there, Close included, since nothing at Finished is listed), and otherwise
with the protocol violation carrying the offending (mode, message, phase)
tuple.  An Except error returns no state and no effects. -/
theorem unlisted_combination_fails (t : GossipType) (p : RoundPhase) (m : RoundMsg)
    (h : inSpecTable t m p = false) :
    roundTransition t p (.Msg m) =
      .error (if p = .Finished then .terminal else .invalidTransition t m p) := by
  revert h
  revert t p m
  decide

/-- C8 witness: at the concrete input (Recent, Finished, Close) the
transition fails with the terminal violation. -/
theorem unlisted_combination_fails_witness :
    roundTransition .Recent .Finished (.Msg .Close) =
      .error (if RoundPhase.Finished = .Finished then .terminal
        else .invalidTransition .Recent .Close .Finished) :=
  unlisted_combination_fails .Recent .Finished .Close (by decide)

/-- C9: the Recent-mode early-finish shortcut: Started(false) + AgentDiff
goes to AgentsReceived(false) emitting OpDiff, and AgentsReceived(false) +
OpDiff goes directly to Finished with no effects. -/
theorem recent_early_finish_shortcut :
    roundTransition .Recent (.Started false) (.Msg .AgentDiff)
      = .ok (.AgentsReceived false, [.OpDiff]) ∧
    roundTransition .Recent (.AgentsReceived false) (.Msg .OpDiff)
      = .ok (.Finished, []) := by
  decide

/-- C10: in every phase where MustSend is not declared valid
(AgentDiffReceived, OpDiffReceived and Finished in either mode, and
AgentsReceived in Historical mode) the transition succeeds, returning the
phase unchanged with no effects, rather than failing. -/
theorem mustSend_elsewhere_is_noop (t : GossipType) (b : Bool) :
    roundTransition t .AgentDiffReceived .MustSend = .ok (.AgentDiffReceived, []) ∧
    roundTransition t .OpDiffReceived .MustSend = .ok (.OpDiffReceived, []) ∧
    roundTransition t .Finished .MustSend = .ok (.Finished, []) ∧
    roundTransition .Historical (.AgentsReceived b) .MustSend
      = .ok (.AgentsReceived b, []) := by
  revert t b
  decide

/-! ## Peer coordinator claims -/

/-- C2 (amended): handling an incoming Accept from p with no session for p
and initiateTarget = Some({p,_}) creates the session for p in phase Started
with mustSend = false (not true as the claim states), leaves the target in
place, and emits the mode's first diff message (AgentDiff in Recent mode,
OpDiff in Historical mode) to p. -/
theorem accept_creates_started_session (gt : GossipType) (s : PeerState)
    (p : NodeId) (tb : Bool)
    (hr : s.rounds p = none) (ht : s.initiate_tgt = some ⟨p, tb⟩) :
    peerTransition gt s (.Incoming p .Accept) =
      .ok ({ s with rounds := mapInsert s.rounds p (.Started false) },
        [(p, if gt = .Recent then RoundMsg.AgentDiff else RoundMsg.OpDiff)]) := by
  simp [peerTransition, hr, ht]

/-- C2 witness: the concrete Recent-mode instance with target peer 0. -/
theorem accept_creates_started_session_witness :
    peerTransition .Recent ⟨fun _ => none, some ⟨0, false⟩⟩ (.Incoming 0 .Accept) =
      .ok (⟨mapInsert (fun _ => none) 0 (.Started false), some ⟨0, false⟩⟩,
        [(0, if GossipType.Recent = .Recent then RoundMsg.AgentDiff
          else RoundMsg.OpDiff)]) :=
  accept_creates_started_session .Recent ⟨fun _ => none, some ⟨0, false⟩⟩ 0 false
    rfl rfl

/-- C2 counterexample: the claim as stated (session created with
mustSend = true) is false at mode Recent, peer 0, an empty rounds map and
initiateTarget = Some({0, false}): the code creates Started(false). -/
theorem accept_creates_session_counterexample :
    ¬ (∀ (gt : GossipType) (s : PeerState) (p : NodeId) (tb : Bool),
        s.rounds p = none → s.initiate_tgt = some ⟨p, tb⟩ →
        peerTransition gt s (.Incoming p .Accept) =
          .ok ({ s with rounds := mapInsert s.rounds p (.Started true) },
            [(p, if gt = .Recent then RoundMsg.AgentDiff
              else RoundMsg.OpDiff)])) := by
  intro h
  have hc := h .Recent ⟨fun _ => none, some ⟨0, false⟩⟩ 0 false rfl rfl
  exact absurd hc (by decide)

/-- C3 (amended): an incoming Initiate from p with no session for p while
initiateTarget = Some({p,_}) (unresolved mutual initiation) succeeds as a
logged no-op — state unchanged, no session created, no effects — rather
than failing with a protocol violation. -/
theorem mutual_initiate_is_noop (gt : GossipType) (s : PeerState)
    (p : NodeId) (tb : Bool)
    (hr : s.rounds p = none) (ht : s.initiate_tgt = some ⟨p, tb⟩) :
    peerTransition gt s (.Incoming p .Initiate) = .ok (s, []) := by
  simp [peerTransition, hr, ht]

/-- C3 witness: the concrete Recent-mode instance with target peer 0. -/
theorem mutual_initiate_is_noop_witness :
    peerTransition .Recent ⟨fun _ => none, some ⟨0, false⟩⟩ (.Incoming 0 .Initiate)
      = .ok (⟨fun _ => none, some ⟨0, false⟩⟩, []) :=
  mutual_initiate_is_noop .Recent ⟨fun _ => none, some ⟨0, false⟩⟩ 0 false rfl rfl

/-- C3 counterexample: the claim as stated (the operation fails) is false at
mode Recent, peer 0, an empty rounds map and initiateTarget =
Some({0, false}): the code returns Ok with no effects. -/
theorem mutual_initiate_error_counterexample :
    ¬ (∀ (gt : GossipType) (s : PeerState) (p : NodeId) (tb : Bool),
        s.rounds p = none → s.initiate_tgt = some ⟨p, tb⟩ →
        ∃ e : ModelError,
          peerTransition gt s (.Incoming p .Initiate) = .error e) := by
  intro h
  obtain ⟨e, he⟩ := h .Recent ⟨fun _ => none, some ⟨0, false⟩⟩ 0 false rfl rfl
  have hok : peerTransition .Recent ⟨fun _ => none, some ⟨0, false⟩⟩
      (.Incoming 0 .Initiate) = .ok (⟨fun _ => none, some ⟨0, false⟩⟩, []) := by
    decide
  rw [hok] at he
  simp at he

/-- C4 (amended): requestInitiate(p, t) with initiateTarget already Some
leaves the state unchanged, but still emits the effect sending Initiate to
p (it is not effect-free as the claim states). -/
theorem set_initiate_when_target_exists (gt : GossipType) (s : PeerState)
    (p : NodeId) (tb : Bool) (t0 : Tgt) (ht : s.initiate_tgt = some t0) :
    peerTransition gt s (.SetInitiate p tb) = .ok (s, [(p, .Initiate)]) := by
  simp [peerTransition, ht]

/-- C4 witness: the concrete instance with an existing target 0 and a
request aimed at peer 1. -/
theorem set_initiate_when_target_exists_witness :
    peerTransition .Recent ⟨fun _ => none, some ⟨0, false⟩⟩ (.SetInitiate 1 true)
      = .ok (⟨fun _ => none, some ⟨0, false⟩⟩, [(1, .Initiate)]) :=
  set_initiate_when_target_exists .Recent ⟨fun _ => none, some ⟨0, false⟩⟩ 1 true
    ⟨0, false⟩ rfl

/-- C4 counterexample: the claim as stated (no effects) is false with
initiateTarget = Some({0, false}) and a request aimed at peer 1: the code
emits (1, Initiate). -/
theorem set_initiate_noop_counterexample :
    ¬ (∀ (gt : GossipType) (s : PeerState) (p : NodeId) (tb : Bool) (t0 : Tgt),
        s.initiate_tgt = some t0 →
        peerTransition gt s (.SetInitiate p tb) = .ok (s, [])) := by
  intro h
  have hc := h .Recent ⟨fun _ => none, some ⟨0, false⟩⟩ 1 true ⟨0, false⟩ rfl
  exact absurd hc (by decide)

/-- C5 (amended): an incoming Close from p removes the session for p, emits
zero effects and never fails, but leaves initiateTarget untouched even when
it targeted p (the claim says it is cleared). -/
theorem close_removes_session (gt : GossipType) (s : PeerState) (p : NodeId) :
    peerTransition gt s (.Incoming p .Close) =
      .ok ({ s with rounds := mapRemove s.rounds p }, []) := rfl

/-- C5 counterexample: the claim as stated (Close clears initiateTarget when
it targeted p) is false at a state with a session for 0 and initiateTarget =
Some({0, false}): the code keeps the target. -/
theorem close_clears_target_counterexample :
    ¬ (∀ (gt : GossipType) (s : PeerState) (p : NodeId),
        peerTransition gt s (.Incoming p .Close) =
          .ok ({ rounds := mapRemove s.rounds p,
                 initiate_tgt :=
                   if s.initiate_tgt.map Tgt.cert = some p then none
                   else s.initiate_tgt }, [])) := by
  intro h
  have hc := h .Recent
    ⟨mapInsert (fun _ => none) 0 (.Started false), some ⟨0, false⟩⟩ 0
  exact absurd hc (by decide)

/-- C6 (amended): a non-handshake wire message (AgentDiff, Agents, OpDiff or
Ops) delivered for a peer with no session fails with the no-active-round
error (an Except error returns no state, so the state is unchanged).  The
handshake and control messages Initiate, Accept and Close do not fail this
way, which is what the counterexample shows. -/
theorem no_session_message_fails (gt : GossipType) (s : PeerState) (p : NodeId)
    (m : RoundMsg)
    (hm : m ∈ [RoundMsg.AgentDiff, RoundMsg.Agents, RoundMsg.OpDiff, RoundMsg.Ops])
    (hr : s.rounds p = none) :
    peerTransition gt s (.Incoming p m) = .error (.noRound p) := by
  fin_cases hm <;>
    simp [peerTransition, NodeAction.nodeId, NodeAction.intoRoundAction, hr]

/-- C6 witness: the concrete instance AgentDiff from peer 0 in the initial
state. -/
theorem no_session_message_fails_witness :
    peerTransition .Recent PeerState.initial (.Incoming 0 .AgentDiff)
      = .error (.noRound 0) :=
  no_session_message_fails .Recent PeerState.initial 0 .AgentDiff (by decide) rfl

/-- C6 counterexample: the claim as stated (any message with no session
fails with NoActiveRound) is false at an incoming Initiate from 0 in the
initial state: the code creates a session and succeeds. -/
theorem no_session_any_message_counterexample :
    ¬ (∀ (gt : GossipType) (s : PeerState) (p : NodeId) (m : RoundMsg),
        s.rounds p = none →
        peerTransition gt s (.Incoming p m) = .error (.noRound p)) := by
  intro h
  have hc := h .Recent PeerState.initial 0 .Initiate rfl
  exact absurd hc (by decide)

/-! ## The C1 invariant: helper lemmas and the guarded reachability proof -/

theorem finishRound_rounds (s : PeerState) (p : NodeId) :
    (finishRound s p).rounds = mapRemove s.rounds p := by
  simp only [finishRound]
  split <;> rfl

theorem finishRound_tgt (s : PeerState) (p : NodeId) :
    (finishRound s p).initiate_tgt =
      if s.initiate_tgt.map Tgt.cert = some p then none else s.initiate_tgt := by
  simp only [finishRound]
  split <;> simp_all

/-- The delegation arm's resulting state (finish the round or store the
updated phase) preserves the target-free invariant, because a peer with a
session cannot be the target under the invariant. -/
theorem delegation_preserves {s : PeerState} {sender : NodeId}
    {round round' : RoundPhase}
    (hr : s.rounds sender = some round) (hI : InitiateTargetFree s) :
    InitiateTargetFree
      (if round' = .Finished then
        finishRound { s with rounds := mapRemove s.rounds sender } sender
       else { s with
        rounds := mapInsert (mapRemove s.rounds sender) sender round' }) := by
  intro t ht
  split at ht
  · rename_i hf
    rw [if_pos hf]
    rw [finishRound_tgt] at ht
    split at ht
    · simp at ht
    · rw [finishRound_rounds]
      rcases eq_or_ne t.cert sender with hq | hq <;> simp [mapRemove, hq]
      exact hI t ht
  · rename_i hf
    rw [if_neg hf]
    have hne : t.cert ≠ sender := by
      intro he
      have hc := hI t ht
      rw [he, hr] at hc
      cases hc
    simp [mapInsert, mapRemove, hne]
    exact hI t ht

/-- One successfully applied, guard-passing action preserves the invariant
that a pending initiate target has no session. -/
theorem step_preserves {gt : GossipType} {s s' : PeerState} {a : NodeAction}
    {fx : List (NodeId × RoundMsg)}
    (hA : actionAllowed s a = true)
    (h : peerTransition gt s a = .ok (s', fx))
    (hI : InitiateTargetFree s) : InitiateTargetFree s' := by
  cases a with
  | SetInitiate p tb =>
      cases htg : s.initiate_tgt with
      | none =>
          simp [peerTransition, htg] at h
          obtain ⟨rfl, rfl⟩ := h
          intro t ht
          have htc : t = ⟨p, tb⟩ := (Option.some.inj ht).symm
          subst htc
          exact Option.isNone_iff_eq_none.mp hA
      | some t0 =>
          simp [peerTransition, htg] at h
          obtain ⟨rfl, rfl⟩ := h
          exact hI
  | Timeout p =>
      simp only [peerTransition, Except.ok.injEq, Prod.mk.injEq] at h
      obtain ⟨rfl, rfl⟩ := h
      intro t ht
      rw [finishRound_tgt] at ht
      split at ht
      · simp at ht
      · rw [finishRound_rounds]
        rcases eq_or_ne t.cert p with hq | hq <;> simp [mapRemove, hq]
        exact hI t ht
  | TieBreakLoser p =>
      cases htg : s.initiate_tgt with
      | none => simp [peerTransition, htg] at h
      | some t0 =>
          rcases eq_or_ne t0.cert p with hq | hq
          · simp [peerTransition, htg, hq] at h
            obtain ⟨rfl, rfl⟩ := h
            intro t ht
            simp at ht
          · simp [peerTransition, htg, hq] at h
  | MustSend p =>
      cases hr : s.rounds p with
      | none =>
          simp [peerTransition, NodeAction.nodeId, NodeAction.intoRoundAction, hr] at h
      | some round =>
          cases hstep : roundTransition gt round .MustSend with
          | error e =>
              simp [peerTransition, NodeAction.nodeId, NodeAction.intoRoundAction,
                hr, hstep] at h
          | ok pr =>
              obtain ⟨round', rfx⟩ := pr
              simp [peerTransition, NodeAction.nodeId, NodeAction.intoRoundAction,
                hr, hstep] at h
              obtain ⟨rfl, rfl⟩ := h
              exact delegation_preserves hr hI
  | Incoming sender msg =>
      cases msg with
      | Initiate =>
          by_cases h1 : (s.rounds sender).isSome
          · simp [peerTransition, h1] at h
            obtain ⟨rfl, rfl⟩ := h
            exact hI
          · by_cases h2 : s.initiate_tgt.map Tgt.cert = some sender
            · simp [peerTransition, h1, h2] at h
              obtain ⟨rfl, rfl⟩ := h
              exact hI
            · simp [peerTransition, h1, h2] at h
              obtain ⟨rfl, rfl⟩ := h
              intro t ht
              have ht' : s.initiate_tgt = some t := ht
              have hne : t.cert ≠ sender := by
                intro he
                apply h2
                simp [ht', he]
              simp [mapInsert, hne]
              exact hI t ht'
      | Accept => simp [actionAllowed] at hA
      | Close =>
          simp [peerTransition] at h
          obtain ⟨rfl, rfl⟩ := h
          intro t ht
          have ht' : s.initiate_tgt = some t := ht
          rcases eq_or_ne t.cert sender with hq | hq <;> simp [mapRemove, hq]
          exact hI t ht'
      | AgentDiff =>
          cases hr : s.rounds sender with
          | none =>
              simp [peerTransition, NodeAction.nodeId, NodeAction.intoRoundAction, hr] at h
          | some round =>
              cases hstep : roundTransition gt round (.Msg .AgentDiff) with
              | error e =>
                  simp [peerTransition, NodeAction.nodeId, NodeAction.intoRoundAction,
                    hr, hstep] at h
              | ok pr =>
                  obtain ⟨round', rfx⟩ := pr
                  simp [peerTransition, NodeAction.nodeId, NodeAction.intoRoundAction,
                    hr, hstep] at h
                  obtain ⟨rfl, rfl⟩ := h
                  exact delegation_preserves hr hI
      | Agents =>
          cases hr : s.rounds sender with
          | none =>
              simp [peerTransition, NodeAction.nodeId, NodeAction.intoRoundAction, hr] at h
          | some round =>
              cases hstep : roundTransition gt round (.Msg .Agents) with
              | error e =>
                  simp [peerTransition, NodeAction.nodeId, NodeAction.intoRoundAction,
                    hr, hstep] at h
              | ok pr =>
                  obtain ⟨round', rfx⟩ := pr
                  simp [peerTransition, NodeAction.nodeId, NodeAction.intoRoundAction,
                    hr, hstep] at h
                  obtain ⟨rfl, rfl⟩ := h
                  exact delegation_preserves hr hI
      | OpDiff =>
          cases hr : s.rounds sender with
          | none =>
              simp [peerTransition, NodeAction.nodeId, NodeAction.intoRoundAction, hr] at h
          | some round =>
              cases hstep : roundTransition gt round (.Msg .OpDiff) with
              | error e =>
                  simp [peerTransition, NodeAction.nodeId, NodeAction.intoRoundAction,
                    hr, hstep] at h
              | ok pr =>
                  obtain ⟨round', rfx⟩ := pr
                  simp [peerTransition, NodeAction.nodeId, NodeAction.intoRoundAction,
                    hr, hstep] at h
                  obtain ⟨rfl, rfl⟩ := h
                  exact delegation_preserves hr hI
      | Ops =>
          cases hr : s.rounds sender with
          | none =>
              simp [peerTransition, NodeAction.nodeId, NodeAction.intoRoundAction, hr] at h
          | some round =>
              cases hstep : roundTransition gt round (.Msg .Ops) with
              | error e =>
                  simp [peerTransition, NodeAction.nodeId, NodeAction.intoRoundAction,
                    hr, hstep] at h
              | ok pr =>
                  obtain ⟨round', rfx⟩ := pr
                  simp [peerTransition, NodeAction.nodeId, NodeAction.intoRoundAction,
                    hr, hstep] at h
                  obtain ⟨rfl, rfl⟩ := h
                  exact delegation_preserves hr hI

theorem runGuarded_preserves (gt : GossipType) (acts : List NodeAction) :
    ∀ s s' : PeerState, InitiateTargetFree s →
      runGuarded gt s acts = some s' → InitiateTargetFree s' := by
  induction acts with
  | nil =>
      intro s s' hI h
      simp [runGuarded] at h
      exact h ▸ hI
  | cons a rest ih =>
      intro s s' hI h
      simp only [runGuarded] at h
      split at h
      · rename_i hA
        cases hp : peerTransition gt s a with
        | error e => rw [hp] at h; simp at h
        | ok pr =>
            obtain ⟨s1, fx⟩ := pr
            rw [hp] at h
            exact ih s1 s' (step_preserves hA hp hI) h
      · simp at h

/-- C1 (amended): in every coordinator state reachable from the initial
empty state by successfully applied operations, where additionally no
operation is an incoming Accept and every requestInitiate is applied while
its target peer has no session (the `actionAllowed` guard), an
initiateTarget of Some({p,_}) implies the sessions map has no entry for p.
Without that guard the claim is false: see the counterexample, where the
intended Initiate/Accept handshake itself produces a state holding both the
target and a session for the same peer. -/
theorem guarded_reachable_target_free (gt : GossipType) (acts : List NodeAction)
    (s' : PeerState) (h : runGuarded gt PeerState.initial acts = some s')
    (t : Tgt) (ht : s'.initiate_tgt = some t) : s'.rounds t.cert = none :=
  runGuarded_preserves gt acts PeerState.initial s'
    (fun _ hx => by simp [PeerState.initial] at hx) h t ht

/-- C1 witness: the guarded run of a single requestInitiate(0) from the
initial state reaches a state with target 0 and no session for 0. -/
theorem guarded_reachable_target_free_witness :
    ({ rounds := fun _ => none, initiate_tgt := some ⟨0, false⟩ } : PeerState).rounds
      (0 : NodeId) = none :=
  guarded_reachable_target_free .Recent [.SetInitiate 0 false]
    ⟨fun _ => none, some ⟨0, false⟩⟩ (by decide) ⟨0, false⟩ rfl

/-- C1 counterexample: the claim as stated is false.  The successfully
applied sequence requestInitiate(0) then incoming Accept from 0 reaches a
state where initiateTarget = Some({0, false}) and the sessions map holds an
entry for 0 (the Accept arm creates the session without clearing the
target). -/
theorem target_session_overlap_counterexample :
    ¬ (∀ (gt : GossipType) (acts : List NodeAction) (s' : PeerState),
        runAll gt PeerState.initial acts = .ok s' →
        ∀ t : Tgt, s'.initiate_tgt = some t → s'.rounds t.cert = none) := by
  intro h
  have hc := h .Recent [.SetInitiate 0 false, .Incoming 0 .Accept]
    ⟨mapInsert (fun _ => none) 0 (.Started false), some ⟨0, false⟩⟩ (by decide)
    ⟨0, false⟩ rfl
  exact absurd hc (by decide)

end KitsuneGossipModel
